import Mathlib

/-!
Verification of the OpenStreetlifting backend import pipeline.

This file gives a shallow embedding, in Lean 4, of the pure logic of the
importer crates (LiftControl exporter and transformer, canonical validator,
slug generation, RIS computation, formula selection, ranking query, source
client) and proves or refutes the specified properties about them.

Rust Decimal values are modelled as rationals with an explicit
round-to-2-decimal-places operation using the midpoint-nearest-even
strategy, which is the default strategy of Decimal round_dp.
The f64-based exponential helper decimal_exp is modelled as an abstract
function parameter, since exact binary floating point is outside the model.
-/

namespace OSL

/-- ASCII lowering of a string, modelling Rust to_lowercase on the
ASCII-only labels that the importer matches on. -/
def lowerStr (s : String) : String :=
  ⟨s.data.map Char.toLower⟩

/-- ASCII uppering of a string, modelling Rust to_uppercase on the
ASCII-only gender labels used by constants_for_gender. -/
def upperStr (s : String) : String :=
  ⟨s.data.map Char.toUpper⟩

/-- The judge decision field of a raw LiftControl attempt, which may be a
number or a string (models DecisionRep in sources/liftcontrol/models.rs). -/
inductive DecisionRep where
  | num (n : Int)
  | str (s : String)
deriving DecidableEq, Repr

/-- Success classification of the export path, from
LiftControlExporter::build_attempt_data (exporter.rs lines 206 to 210):
a numeric decision is successful when at least 2, a string decision only
when it is one of the two French validation labels. -/
def exporter_is_successful : DecisionRep → Bool
  | .num n => 2 ≤ n
  | .str s => s = "validÃ©" ∨ s = "valide"

/-- Success classification of the direct-import path, from
LiftControlTransformer::import_attempt (transformer.rs lines 464 to 467):
successful exactly for the literal codes 111 and 110, numeric or string. -/
def transformer_is_successful : DecisionRep → Bool
  | .num n => n = 111 ∨ n = 110
  | .str s => s = "111" ∨ s = "110"

/-- Gender mapping of the export path (exporter.rs map_gender):
recognizes man and woman, and falls back to M on unknown labels. -/
def exporter_map_gender (genre : String) : String :=
  let g := lowerStr genre
  if g = "homme" ∨ g = "hommes" ∨ g = "men" ∨ g = "man" ∨ g = "male" ∨ g = "m" then "M"
  else if g = "femme" ∨ g = "femmes" ∨ g = "women" ∨ g = "woman" ∨ g = "female" ∨ g = "f" then "F"
  else "M"

/-- Gender mapping of the direct-import path (transformer.rs map_gender):
does not recognize man or woman, and falls back to MX on unknown labels. -/
def transformer_map_gender (genre : String) : String :=
  let g := lowerStr genre
  if g = "homme" ∨ g = "hommes" ∨ g = "men" ∨ g = "male" ∨ g = "m" then "M"
  else if g = "femme" ∨ g = "femmes" ∨ g = "women" ∨ g = "female" ∨ g = "f" then "F"
  else "MX"

/-- Round a rational to the nearest integer, ties to the even integer;
this is the midpoint-nearest-even strategy of Decimal rounding. -/
def roundHalfEven (x : ℚ) : ℤ :=
  if x - ⌊x⌋ < 1/2 then ⌊x⌋
  else if 1/2 < x - ⌊x⌋ then ⌊x⌋ + 1
  else if ⌊x⌋ % 2 = 0 then ⌊x⌋ else ⌊x⌋ + 1

/-- Round to 2 decimal places, modelling Decimal round_dp(2) with the
default midpoint-nearest-even strategy. -/
def round_dp2 (x : ℚ) : ℚ :=
  ((roundHalfEven (x * 100) : ℤ) : ℚ) / 100

/-- Model of convert_weight (transformer.rs lines 596 to 601): convert the
source float, round to 2 decimal places, and treat a zero result as NULL. -/
def convert_weight (value : ℚ) : Option ℚ :=
  let d := round_dp2 value
  if d = 0 then none else some d

/-- Bodyweight stored by the direct-import path for a participant
(transformer.rs line 252: pesee.and_then(convert_weight)). -/
def stored_bodyweight (pesee : Option ℚ) : Option ℚ :=
  pesee.bind convert_weight

/-- RIS score stored by the direct-import path for a participant
(transformer.rs line 253: convert_weight(athlete_data.ris)). -/
def stored_ris (ris : ℚ) : Option ℚ :=
  convert_weight ris

/-- Max weight stored by the direct-import path for a lift
(transformer.rs line 412: convert_weight(movement_results.max)). -/
def stored_max_weight (maxw : ℚ) : Option ℚ :=
  convert_weight maxw

/-- Attempt weight stored by the direct-import path
(transformer.rs line 474: convert_weight(attempt.charge)). -/
def stored_attempt_weight (charge : ℚ) : Option ℚ :=
  convert_weight charge

/-- C1: counterexample. On the raw judge decision code 2 the export path
classifies the attempt as successful while the direct-import path stores it
as unsuccessful, and on the source gender label man the export path stores
gender M while the direct-import path stores MX, so the two paths do not
apply identical normalization and the stored rows differ. -/
theorem c1_counterexample :
    exporter_is_successful (.num 2) = true
    ∧ transformer_is_successful (.num 2) = false
    ∧ exporter_map_gender "man" = "M"
    ∧ transformer_map_gender "man" = "MX" := by
  refine ⟨by decide, by decide, by decide, by decide⟩

/-- C1 (amended): the export path and the direct-import path agree on
attempt success exactly for numeric judge codes 110, 111 or below 2, agree
on string judge codes exactly outside the four literals recognized by
either path, and agree on category gender exactly for the ten labels
recognized by the direct-import path; outside those sets the stored rows
differ between the two paths. -/
theorem c1_paths_agreement_characterization :
    (∀ n : Int,
      (exporter_is_successful (.num n) = transformer_is_successful (.num n))
        ↔ (n = 110 ∨ n = 111 ∨ n < 2))
    ∧ (∀ s : String,
      (exporter_is_successful (.str s) = transformer_is_successful (.str s))
        ↔ (s ≠ "validÃ©" ∧ s ≠ "valide" ∧ s ≠ "111" ∧ s ≠ "110"))
    ∧ (∀ g : String,
      (exporter_map_gender g = transformer_map_gender g)
        ↔ lowerStr g ∈ ["homme", "hommes", "men", "male", "m",
            "femme", "femmes", "women", "female", "f"]) := by
  refine ⟨?_, ?_, ?_⟩
  · intro n
    simp only [exporter_is_successful, transformer_is_successful, decide_eq_decide]
    omega
  · intro s
    simp only [exporter_is_successful, transformer_is_successful]
    by_cases h1 : s = "validÃ©" <;> by_cases h2 : s = "valide" <;>
      by_cases h3 : s = "111" <;> by_cases h4 : s = "110" <;> simp_all
  · intro g
    simp only [exporter_map_gender, transformer_map_gender, List.mem_cons]
    split_ifs with h1 h2 h3 h4 h5 h6 <;> simp_all <;> tauto

/-- C2: counterexample. In the export path a judge decision encoded as the
string 111 is classified as unsuccessful, so it is not the case that both
encodings of 111 are classified as successful on every import path. -/
theorem c2_counterexample :
    exporter_is_successful (.str "111") = false := by
  decide

/-- C2 (amended): the direct-import path classifies both the string 111
and the integer 111 as successful; the export path classifies the integer
111 as successful but the string 111 as unsuccessful. -/
theorem c2_judge_decision_encodings :
    transformer_is_successful (.str "111") = true
    ∧ transformer_is_successful (.num 111) = true
    ∧ exporter_is_successful (.num 111) = true
    ∧ exporter_is_successful (.str "111") = false := by
  refine ⟨by decide, by decide, by decide, by decide⟩

/-- C10: in the direct-import path a source weight equal to 0.0 converts
to NULL at every site that stores weights: attempt charge, movement max,
participant bodyweight (weigh-in) and source RIS score. -/
theorem c10_zero_weights_stored_as_null :
    convert_weight 0 = none
    ∧ stored_attempt_weight 0 = none
    ∧ stored_max_weight 0 = none
    ∧ stored_bodyweight (some 0) = none
    ∧ stored_ris 0 = none := by
  have h : convert_weight 0 = none := by
    norm_num [convert_weight, round_dp2, roundHalfEven]
  exact ⟨h, h, h, by simp [stored_bodyweight, h], h⟩

/-- A stored RIS formula version row, with gender-specific logistic
constants (models RisFormulaVersion in storage/src/models/ris_formula.rs;
dates are modelled as integer day numbers). -/
structure RisFormulaVersion where
  formulaId : Nat
  year : Int
  effectiveFrom : Int
  effectiveUntil : Option Int
  isCurrent : Bool
  menA : ℚ
  menK : ℚ
  menB : ℚ
  menV : ℚ
  menQ : ℚ
  womenA : ℚ
  womenK : ℚ
  womenB : ℚ
  womenV : ℚ
  womenQ : ℚ
deriving DecidableEq, Repr

/-- The five logistic constants for one gender. -/
structure FormulaConstants where
  a : ℚ
  k : ℚ
  b : ℚ
  v : ℚ
  q : ℚ
deriving DecidableEq, Repr

/-- Model of RisFormulaVersion::constants_for_gender: select the men or
women constants after uppercasing the label, defaulting to men. -/
def constants_for_gender (f : RisFormulaVersion) (gender : String) : FormulaConstants :=
  let g := upperStr gender
  if g = "M" ∨ g = "MALE" ∨ g = "MEN" then ⟨f.menA, f.menK, f.menB, f.menV, f.menQ⟩
  else if g = "F" ∨ g = "FEMALE" ∨ g = "WOMEN" then
    ⟨f.womenA, f.womenK, f.womenB, f.womenV, f.womenQ⟩
  else ⟨f.menA, f.menK, f.menB, f.menV, f.menQ⟩

/-- The denominator computed step by step inside compute_ris
(services/ris_computation.rs lines 18 to 23); the f64-based decimal_exp
helper is the abstract parameter decExp. -/
def ris_denominator (decExp : ℚ → ℚ) (bodyweight : ℚ) (gender : String)
    (formula : RisFormulaVersion) : ℚ :=
  let constants := constants_for_gender formula gender
  let bw_minus_v := bodyweight - constants.v
  let exp_arg := -constants.b * bw_minus_v
  let exp_term := decExp exp_arg
  let denominator_fraction := (constants.k - constants.a) / (1 + constants.q * exp_term)
  constants.a + denominator_fraction

/-- Model of compute_ris (services/ris_computation.rs lines 10 to 28):
total times 100 over the logistic denominator, rounded to 2 decimals. -/
def compute_ris (decExp : ℚ → ℚ) (bodyweight total : ℚ) (gender : String)
    (formula : RisFormulaVersion) : ℚ :=
  round_dp2 ((total * 100) / ris_denominator decExp bodyweight gender formula)

/-- Stable insertion of an element into a descending-sorted list: the new
element is placed before the first element whose key is not larger, so
equal keys keep their original relative order. -/
def insertDescBy {α β : Type} [LinearOrder β] (key : α → β) (x : α) :
    List α → List α
  | [] => [x]
  | y :: ys => if key y ≤ key x then x :: y :: ys else y :: insertDescBy key x ys

/-- Stable descending sort by a key, modelling SQL ORDER BY key DESC with
ties left in input order. -/
def sortDescBy {α β : Type} [LinearOrder β] (key : α → β) : List α → List α
  | [] => []
  | x :: xs => insertDescBy key x (sortDescBy key xs)

/-- The WHERE clause of get_formula_for_date (repository/ris.rs lines 87
to 88): effective_from at most the date, and effective_until null or
strictly after the date. -/
def formula_matches_date (f : RisFormulaVersion) (date : Int) : Bool :=
  decide (f.effectiveFrom ≤ date) &&
    (match f.effectiveUntil with
      | none => true
      | some u => decide (date < u))

/-- Model of RisRepository::get_formula_for_date (repository/ris.rs lines
78 to 99): filter the table by the date predicate, order by effective_from
descending, and take the first row. -/
def get_formula_for_date (table : List RisFormulaVersion) (date : Int) :
    Option RisFormulaVersion :=
  (sortDescBy (fun f => f.effectiveFrom) (table.filter (fun f => formula_matches_date f date))).head?

theorem mem_insertDescBy {α β : Type} [LinearOrder β] (key : α → β) (x a : α) :
    ∀ l : List α, a ∈ insertDescBy key x l ↔ a = x ∨ a ∈ l := by
  intro l
  induction l with
  | nil => simp [insertDescBy]
  | cons y ys ih =>
      simp only [insertDescBy]
      split_ifs <;> simp_all <;> tauto

theorem mem_sortDescBy {α β : Type} [LinearOrder β] (key : α → β) (a : α) :
    ∀ l : List α, a ∈ sortDescBy key l ↔ a ∈ l := by
  intro l
  induction l with
  | nil => simp [sortDescBy]
  | cons y ys ih => simp [sortDescBy, mem_insertDescBy, ih]

theorem head?_mem {α : Type} {l : List α} {a : α} (h : l.head? = some a) : a ∈ l := by
  cases l with
  | nil => simp at h
  | cons x xs =>
      simp only [List.head?_cons, Option.some.injEq] at h
      simp [h]

theorem roundHalfEven_mono {x y : ℚ} (hxy : x ≤ y) :
    roundHalfEven x ≤ roundHalfEven y := by
  have hf : ⌊x⌋ ≤ ⌊y⌋ := Int.floor_le_floor hxy
  unfold roundHalfEven
  by_cases hlt : ⌊x⌋ < ⌊y⌋
  · split_ifs <;> omega
  · have heq : ⌊x⌋ = ⌊y⌋ := le_antisymm hf (by omega)
    have hfr : x - (⌊y⌋ : ℚ) ≤ y - (⌊y⌋ : ℚ) := by linarith
    rw [heq]
    split_ifs <;> first | omega | linarith

theorem round_dp2_mono {x y : ℚ} (h : x ≤ y) : round_dp2 x ≤ round_dp2 y := by
  unfold round_dp2
  have h1 : roundHalfEven (x * 100) ≤ roundHalfEven (y * 100) :=
    roundHalfEven_mono (by linarith)
  have h2 : ((roundHalfEven (x * 100) : ℤ) : ℚ) ≤ ((roundHalfEven (y * 100) : ℤ) : ℚ) := by
    exact_mod_cast h1
  gcongr

/-- C5: compute_ris returns total times 100 divided by
A + (K − A) / (1 + Q · exp(−B·(BW − v))) with the gender-specific
constants, rounded to 2 decimal places, and any formula version returned
by get_formula_for_date comes from the stored table and has an effective
date range containing the requested date. -/
theorem c5_compute_ris_formula :
    (∀ (decExp : ℚ → ℚ) (bw total : ℚ) (gender : String) (f : RisFormulaVersion),
      compute_ris decExp bw total gender f
        = round_dp2 ((total * 100) /
            ((constants_for_gender f gender).a +
              ((constants_for_gender f gender).k - (constants_for_gender f gender).a) /
                (1 + (constants_for_gender f gender).q *
                  decExp (-(constants_for_gender f gender).b *
                    (bw - (constants_for_gender f gender).v))))))
    ∧ (∀ (table : List RisFormulaVersion) (date : Int) (f : RisFormulaVersion),
      get_formula_for_date table date = some f →
        f ∈ table ∧ f.effectiveFrom ≤ date ∧
          (∀ u, f.effectiveUntil = some u → date < u)) := by
  constructor
  · intro decExp bw total gender f
    rfl
  · intro table date f h
    have hmem : f ∈ (table.filter (fun f => formula_matches_date f date)) := by
      have := head?_mem h
      rwa [mem_sortDescBy] at this
    rw [List.mem_filter] at hmem
    refine ⟨hmem.1, ?_, ?_⟩
    · have := hmem.2
      simp only [formula_matches_date, Bool.and_eq_true, decide_eq_true_eq] at this
      exact this.1
    · intro u hu
      have := hmem.2
      simp only [formula_matches_date, Bool.and_eq_true, decide_eq_true_eq, hu] at this
      exact this.2

/-- A concrete older formula version used to exercise date selection. -/
def formulaA : RisFormulaVersion :=
  ⟨1, 2020, 0, some 1000, false, 1, 1, 1, 1, 1, 1, 1, 1, 1, 1⟩

/-- A concrete current formula version used to exercise date selection. -/
def formulaB : RisFormulaVersion :=
  ⟨2, 2023, 1000, none, true, 2, 2, 2, 2, 2, 2, 2, 2, 2, 2⟩

/-- C5: witness. On a concrete two-version table, the version selected for
day 1500 is the second one, it belongs to the table, and its effective
range contains the date. -/
theorem c5_witness :
    get_formula_for_date [formulaA, formulaB] 1500 = some formulaB
    ∧ (formulaB ∈ [formulaA, formulaB] ∧ formulaB.effectiveFrom ≤ 1500 ∧
        (∀ u, formulaB.effectiveUntil = some u → 1500 < u)) := by
  have h : get_formula_for_date [formulaA, formulaB] 1500 = some formulaB := by
    decide
  exact ⟨h, c5_compute_ris_formula.2 [formulaA, formulaB] 1500 formulaB h⟩

/-- A concrete formula version whose men constants give the constant
denominator 100, used to exhibit rounding collapse. -/
def formulaZero : RisFormulaVersion :=
  ⟨1, 2024, 0, none, true, 0, 100, 0, 0, 0, 0, 100, 0, 0, 0⟩

/-- C6: counterexample. With a fixed bodyweight, gender and formula whose
denominator is 100, the totals 100.001 and 100.002 are strictly ordered
but compute_ris returns the same 2-decimal score 100 for both, so strict
monotonicity of the computed score fails. -/
theorem c6_counterexample :
    (100001 / 1000 : ℚ) < 100002 / 1000
    ∧ compute_ris (fun _ => 1) 80 (100001 / 1000) "M" formulaZero
        = compute_ris (fun _ => 1) 80 (100002 / 1000) "M" formulaZero := by
  constructor
  · norm_num
  · norm_num [compute_ris, ris_denominator, constants_for_gender, upperStr,
      formulaZero, round_dp2, roundHalfEven]

/-- C6 (amended): for a fixed bodyweight, gender and formula version whose
denominator is positive, a strictly larger total gives a strictly larger
unrounded RIS value, and the stored score, rounded to 2 decimal places, is
monotone but may collapse totals that differ by less than half a
hundredth. -/
theorem c6_total_monotone :
    ∀ (decExp : ℚ → ℚ) (bw : ℚ) (gender : String) (f : RisFormulaVersion)
      (t1 t2 : ℚ),
      0 < ris_denominator decExp bw gender f → t1 < t2 →
      (t1 * 100) / ris_denominator decExp bw gender f
          < (t2 * 100) / ris_denominator decExp bw gender f
      ∧ compute_ris decExp bw t1 gender f ≤ compute_ris decExp bw t2 gender f := by
  intro decExp bw gender f t1 t2 hD ht
  have hlt : (t1 * 100) / ris_denominator decExp bw gender f
      < (t2 * 100) / ris_denominator decExp bw gender f := by
    gcongr
  exact ⟨hlt, round_dp2_mono hlt.le⟩

/-- C6: witness. The amended monotonicity applied at a concrete formula
with denominator 100 and totals 1 and 2. -/
theorem c6_witness :
    0 < ris_denominator (fun _ => 1) 80 "M" formulaZero
    ∧ (1 : ℚ) < 2
    ∧ (1 * 100) / ris_denominator (fun _ => 1) 80 "M" formulaZero
        < (2 * 100) / ris_denominator (fun _ => 1) 80 "M" formulaZero
    ∧ compute_ris (fun _ => 1) 80 1 "M" formulaZero
        ≤ compute_ris (fun _ => 1) 80 2 "M" formulaZero := by
  have h1 : 0 < ris_denominator (fun _ => 1) 80 "M" formulaZero := by
    norm_num [ris_denominator, constants_for_gender, upperStr, formulaZero]
  have h2 : (1 : ℚ) < 2 := by norm_num
  have h3 := c6_total_monotone (fun _ => 1) 80 "M" formulaZero 1 2 h1 h2
  exact ⟨h1, h2, h3.1, h3.2⟩

/-- The two ways a reqwest call can fail inside fetch_live_general_table:
the send itself fails (transport), or the json body fails to decode. -/
inductive ReqwestErrorKind where
  | transport
  | decode
deriving DecidableEq, Repr

/-- The importer error enumeration (models ImporterError in
importer/src/error.rs); reqwest errors map to RequestError and serde_json
errors map to ParseError via the From derivations. -/
inductive ImporterError where
  | RequestError (kind : ReqwestErrorKind)
  | ParseError
  | DatabaseError
  | StorageError
  | TransformationError (msg : String)
  | ImportError (msg : String)
  | ValidationError (msg : String)
deriving DecidableEq, Repr

/-- An HTTP response as seen by the client: a status code and the result
of attempting to deserialize the body into the expected shape. -/
structure HttpResponse (α : Type) where
  status : Nat
  decoded : Option α
deriving DecidableEq, Repr

/-- Model of LiftControlClient::fetch_live_general_table (client.rs lines
20 to 30): propagate a send failure, then propagate a body decode failure;
both become RequestError because both are reqwest errors. The status code
of a received response is never inspected. -/
def fetch_live_general_table {α : Type} (sendResult : Except Unit (HttpResponse α)) :
    Except ImporterError α :=
  match sendResult with
  | .error _ => .error (.RequestError .transport)
  | .ok response =>
      match response.decoded with
      | some data => .ok data
      | none => .error (.RequestError .decode)

/-- Success statuses in the HTTP sense, used only to state the claim. -/
def isSuccessStatus (status : Nat) : Bool :=
  decide (200 ≤ status) && decide (status < 300)

/-- C7: counterexample. A response with the non-success status 500 whose
body deserializes into the expected shape is returned as a success by the
client, so the client does not fail on non-success HTTP status and the
claimed SourceUnavailable classification does not hold. -/
theorem c7_counterexample :
    fetch_live_general_table (.ok (⟨500, some 42⟩ : HttpResponse Nat)) = .ok 42
    ∧ isSuccessStatus 500 = false := by
  refine ⟨rfl, by decide⟩

/-- C7 (amended): the session fetch fails exactly when the transport fails
or the body cannot be deserialized, in both cases with a RequestError
carrying the reqwest failure; the HTTP status code is never inspected, so
changing it never changes the result. -/
theorem c7_fetch_error_classification :
    ∀ (α : Type) (r : Except Unit (HttpResponse α)),
      ((∀ e, r = .error e →
          fetch_live_general_table r = .error (.RequestError .transport))
      ∧ (∀ response : HttpResponse α, r = .ok response → response.decoded = none →
          fetch_live_general_table r = .error (.RequestError .decode))
      ∧ (∀ (response : HttpResponse α) (v : α), r = .ok response →
          response.decoded = some v → fetch_live_general_table r = .ok v)
      ∧ (∀ (response : HttpResponse α) (s : Nat), r = .ok response →
          fetch_live_general_table r
            = fetch_live_general_table (.ok (⟨s, response.decoded⟩ : HttpResponse α)))) := by
  intro α r
  refine ⟨?_, ?_, ?_, ?_⟩
  · intro e he
    subst he
    rfl
  · intro response hr hd
    subst hr
    simp [fetch_live_general_table, hd]
  · intro response v hr hd
    subst hr
    simp [fetch_live_general_table, hd]
  · intro response s hr
    subst hr
    simp only [fetch_live_general_table]

/-- C7: witness. The amended classification applied to a concrete ok
response with an undecodable body: the result is a decode RequestError. -/
theorem c7_witness :
    fetch_live_general_table (.ok (⟨200, (none : Option Nat)⟩ : HttpResponse Nat))
      = .error (.RequestError .decode) := by
  exact (c7_fetch_error_classification Nat
    (.ok (⟨200, none⟩ : HttpResponse Nat))).2.1 ⟨200, none⟩ rfl rfl

/-- Fuel-driven digit expansion of a natural number, most significant
digit first; the fuel always exceeds the number so the fuel branch is
never hit. -/
def natDigitsAux : Nat → Nat → List Char
  | 0, _ => []
  | fuel + 1, n =>
      if n < 10 then [Nat.digitChar n]
      else natDigitsAux fuel (n / 10) ++ [Nat.digitChar (n % 10)]

/-- Decimal digit list of a natural number, modelling the standard Display
rendering used by the Rust format machinery. -/
def natDigits (n : Nat) : List Char :=
  natDigitsAux (n + 1) n

/-- Decimal string of a natural number. -/
def natStr (n : Nat) : String :=
  ⟨natDigits n⟩

/-- Decimal string of an integer, with a leading minus sign when
negative. -/
def intStr (i : Int) : String :=
  if i < 0 then "-" ++ natStr (-i).toNat else natStr i.toNat

theorem natDigitsAux_irrel :
    ∀ (fuel1 fuel2 n : Nat), n < fuel1 → n < fuel2 →
      natDigitsAux fuel1 n = natDigitsAux fuel2 n := by
  intro fuel1
  induction fuel1 with
  | zero => omega
  | succ f ih =>
      intro fuel2 n h1 h2
      cases fuel2 with
      | zero => omega
      | succ g =>
          simp only [natDigitsAux]
          by_cases hn : n < 10
          · simp [hn]
          · have hdiv : n / 10 < n := Nat.div_lt_self (by omega) (by omega)
            simp only [hn, if_false]
            rw [ih g (n / 10) (by omega) (by omega)]

theorem natDigits_unfold (n : Nat) :
    natDigits n = if n < 10 then [Nat.digitChar n]
      else natDigits (n / 10) ++ [Nat.digitChar (n % 10)] := by
  by_cases hn : n < 10
  · simp only [natDigits, natDigitsAux, hn, if_true]
  · have hdiv : n / 10 < n := Nat.div_lt_self (by omega) (by omega)
    show (if n < 10 then [Nat.digitChar n]
      else natDigitsAux n (n / 10) ++ [Nat.digitChar (n % 10)]) = _
    simp only [hn, if_false]
    rw [natDigitsAux_irrel n (n / 10 + 1) (n / 10) (by omega) (by omega)]
    rfl

theorem digitChar_toNat (d : Nat) (h : d < 10) : (Nat.digitChar d).toNat = 48 + d := by
  interval_cases d <;> decide

theorem digitChar_props (d : Nat) (h : d < 10) :
    (Nat.digitChar d).isDigit = true ∧ (Nat.digitChar d).isAlphanum = true
    ∧ (Nat.digitChar d).isUpper = false := by
  interval_cases d <;> exact ⟨by decide, by decide, by decide⟩

theorem natDigits_ne_nil (n : Nat) : natDigits n ≠ [] := by
  rw [natDigits_unfold]
  by_cases hn : n < 10 <;> simp [hn]

theorem mem_natDigits_props (n : Nat) :
    ∀ c ∈ natDigits n, c.isDigit = true ∧ c.isAlphanum = true ∧ c.isUpper = false := by
  induction n using Nat.strong_induction_on with
  | _ n ih =>
      intro c hc
      rw [natDigits_unfold] at hc
      by_cases hn : n < 10
      · simp [hn] at hc
        subst hc
        exact digitChar_props n hn
      · simp only [hn, if_false, List.mem_append, List.mem_singleton] at hc
        rcases hc with hc | hc
        · exact ih (n / 10) (Nat.div_lt_self (by omega) (by omega)) c hc
        · subst hc
          exact digitChar_props (n % 10) (Nat.mod_lt _ (by omega))

theorem natDigits_inj : ∀ n m : Nat, natDigits n = natDigits m → n = m := by
  intro n
  induction n using Nat.strong_induction_on with
  | _ n ih =>
      intro m h
      rw [natDigits_unfold n, natDigits_unfold m] at h
      by_cases hn : n < 10 <;> by_cases hm : m < 10
      · simp only [hn, hm, if_true, List.cons.injEq] at h
        have := congrArg Char.toNat h.1
        rw [digitChar_toNat n hn, digitChar_toNat m hm] at this
        omega
      · exfalso
        simp only [hn, hm, if_true, if_false] at h
        have hlen := congrArg List.length h
        simp only [List.length_append, List.length_singleton, List.length_cons,
          List.length_nil] at hlen
        have h0 : (natDigits (m / 10)).length = 0 := by omega
        exact natDigits_ne_nil (m / 10) (List.length_eq_zero.mp h0)
      · exfalso
        simp only [hn, hm, if_true, if_false] at h
        have hlen := congrArg List.length h
        simp only [List.length_append, List.length_singleton, List.length_cons,
          List.length_nil] at hlen
        have h0 : (natDigits (n / 10)).length = 0 := by omega
        exact natDigits_ne_nil (n / 10) (List.length_eq_zero.mp h0)
      · simp only [hn, hm, if_false] at h
        have hlen : ([Nat.digitChar (n % 10)] : List Char).length
            = ([Nat.digitChar (m % 10)] : List Char).length := rfl
        have hparts := List.append_inj' h (by rfl)
        have h1 : n / 10 = m / 10 :=
          ih (n / 10) (Nat.div_lt_self (by omega) (by omega)) (m / 10) hparts.1
        have h2 : Nat.digitChar (n % 10) = Nat.digitChar (m % 10) := by
          have := hparts.2
          simpa using this
        have := congrArg Char.toNat h2
        rw [digitChar_toNat (n % 10) (Nat.mod_lt _ (by omega)),
          digitChar_toNat (m % 10) (Nat.mod_lt _ (by omega))] at this
        omega

theorem natStr_inj : ∀ n m : Nat, natStr n = natStr m → n = m := by
  intro n m h
  apply natDigits_inj
  have : (natStr n).data = (natStr m).data := by rw [h]
  exact this

/-- Federation block of a canonical document (canonical/models.rs). -/
structure FederationData where
  name : String
  slug : Option String
  abbreviation : Option String
  country : Option String
deriving DecidableEq, Repr

/-- Competition block of a canonical document (canonical/models.rs);
dates are modelled as integer day numbers. -/
structure CompetitionData where
  name : String
  slug : String
  federation : FederationData
  start_date : Int
  end_date : Int
  venue : Option String
  city : Option String
  country : String
  number_of_judges : Option Int
  status : Option String
deriving DecidableEq, Repr

/-- Movement entry of a canonical document. -/
structure MovementData where
  name : String
  order : Int
  is_required : Option Bool
deriving DecidableEq, Repr

/-- Attempt entry of a canonical document. -/
structure AttemptData where
  attempt_number : Int
  weight : ℚ
  is_successful : Bool
  no_rep_reason : Option String
deriving DecidableEq, Repr

/-- Lift entry of a canonical document. -/
structure LiftData where
  movement : String
  attempts : List AttemptData
deriving DecidableEq, Repr

/-- Athlete entry of a canonical document. -/
structure AthleteData where
  first_name : String
  last_name : String
  gender : Option String
  country : String
  nationality : Option String
  bodyweight : Option ℚ
  is_disqualified : Option Bool
  disqualified_reason : Option String
  lifts : List LiftData
deriving DecidableEq, Repr

/-- Category entry of a canonical document. -/
structure CategoryData where
  name : String
  gender : String
  weight_class_min : Option ℚ
  weight_class_max : Option ℚ
  athletes : List AthleteData
deriving DecidableEq, Repr

/-- A canonical document, restricted to the fields the validator and the
importer read (source metadata blocks carry no validated content). -/
structure CanonicalFormat where
  format_version : String
  competition : CompetitionData
  movements : List MovementData
  categories : List CategoryData
deriving DecidableEq, Repr

/-- The validation report of canonical/validator.rs: blocking errors and
non-blocking warnings, each in push order. -/
structure ValidationReport where
  errors : List String
  warnings : List String
deriving DecidableEq, Repr

/-- Errors pushed for one movement entry given the names already seen
(validator.rs lines 69 to 86). -/
def movementItemErrors (m : MovementData) (seen : List String) : List String :=
  (if m.name = "" then ["Movement name cannot be empty"] else []) ++
  (if m.order < 1 then
    ["Movement \x27" ++ m.name ++ "\x27 has invalid order: " ++ intStr m.order
      ++ ". Order must be >= 1"] else []) ++
  (if m.name ∈ seen then ["Duplicate movement name: \x27" ++ m.name ++ "\x27"] else [])

/-- The movement loop of the validator, threading the set of names seen so
far exactly as the HashSet insert does. -/
def movementsErrors : List MovementData → List String → List String
  | [], _ => []
  | m :: rest, seen => movementItemErrors m seen ++ movementsErrors rest (m.name :: seen)

/-- The athlete label used inside validation messages (validator.rs lines
114 to 115). -/
def athleteLabel (idx : Nat) (a : AthleteData) : String :=
  natStr (idx + 1) ++ ". " ++ a.first_name ++ " " ++ a.last_name

/-- Errors pushed for one attempt (validator.rs lines 162 to 175). -/
def attemptErrors (label movement : String) (a : AttemptData) : List String :=
  (if a.attempt_number < 1 ∨ a.attempt_number > 3 then
    ["Athlete \x27" ++ label ++ "\x27, movement \x27" ++ movement
      ++ "\x27: invalid attempt_number " ++ intStr a.attempt_number ++ ". Must be 1-3"]
   else []) ++
  (if a.weight < 0 then
    ["Athlete \x27" ++ label ++ "\x27, movement \x27" ++ movement ++ "\x27, attempt "
      ++ intStr a.attempt_number ++ ": negative weight"]
   else [])

/-- Errors pushed for one lift (validator.rs lines 147 to 176). -/
def liftErrors (movementNames : List String) (label : String) (l : LiftData) : List String :=
  (if l.movement ∈ movementNames then []
   else ["Athlete \x27" ++ label ++ "\x27 has lift for unknown movement: \x27"
      ++ l.movement ++ "\x27"]) ++
  (if l.attempts = [] then
    ["Athlete \x27" ++ label ++ "\x27 has lift \x27" ++ l.movement ++ "\x27 with no attempts"]
   else []) ++
  (l.attempts.map (attemptErrors label l.movement)).flatten

/-- Errors pushed for one athlete (validator.rs lines 113 to 176). -/
def athleteErrors (movementNames : List String) (catName : String) (idx : Nat)
    (a : AthleteData) : List String :=
  (if a.first_name = "" then
    ["Athlete in category \x27" ++ catName ++ "\x27 has empty first_name"] else []) ++
  (if a.last_name = "" then
    ["Athlete in category \x27" ++ catName ++ "\x27 has empty last_name"] else []) ++
  (if a.country = "" then
    ["Athlete \x27" ++ athleteLabel idx a ++ "\x27 has empty country"] else []) ++
  (a.lifts.map (liftErrors movementNames (athleteLabel idx a))).flatten

/-- Warnings pushed for one athlete (validator.rs lines 135 to 145). -/
def athleteWarnings (idx : Nat) (a : AthleteData) : List String :=
  (if a.bodyweight = none then
    ["Athlete \x27" ++ athleteLabel idx a ++ "\x27 is missing bodyweight"] else []) ++
  (if a.lifts = [] then
    ["Athlete \x27" ++ athleteLabel idx a ++ "\x27 has no lifts"] else [])

/-- Errors pushed for one category (validator.rs lines 94 to 178). -/
def categoryErrors (movementNames : List String) (c : CategoryData) : List String :=
  (if c.name = "" then ["Category name cannot be empty"] else []) ++
  (if c.gender ≠ "M" ∧ c.gender ≠ "F" then
    ["Invalid gender in category \x27" ++ c.name ++ "\x27: \x27" ++ c.gender
      ++ "\x27. Must be \x27M\x27 or \x27F\x27"] else []) ++
  (c.athletes.enum.map (fun p => athleteErrors movementNames c.name p.1 p.2)).flatten

/-- Warnings pushed for one category. -/
def categoryWarnings (c : CategoryData) : List String :=
  (if c.athletes = [] then ["Category \x27" ++ c.name ++ "\x27 has no athletes"] else []) ++
  (c.athletes.enum.map (fun p => athleteWarnings p.1 p.2)).flatten

/-- Errors pushed for the header fields of the document (validator.rs
lines 12 to 44). -/
def competitionErrors (c : CanonicalFormat) : List String :=
  (if c.format_version ≠ "1.0.0" then
    ["Unsupported format version: " ++ c.format_version ++ ". Expected 1.0.0"] else []) ++
  (if c.competition.name = "" then ["Competition name is required"] else []) ++
  (if c.competition.slug = "" then ["Competition slug is required"] else []) ++
  (if c.competition.country = "" then ["Competition country is required"] else []) ++
  (if c.competition.end_date < c.competition.start_date then
    ["Competition end_date must be >= start_date"] else []) ++
  (if c.competition.federation.name = "" then ["Federation name is required"] else [])

/-- All blocking errors of a document, in the exact push order of
CanonicalValidator::validate. -/
def collectErrors (c : CanonicalFormat) : List String :=
  competitionErrors c ++
  (if c.movements = [] then ["At least one movement is required"] else []) ++
  movementsErrors c.movements [] ++
  (if c.categories = [] then ["At least one category is required"] else []) ++
  (c.categories.map (categoryErrors (c.movements.map (fun m => m.name)))).flatten

/-- All warnings of a document, in push order. -/
def collectWarnings (c : CanonicalFormat) : List String :=
  (if c.competition.venue = none then ["Competition venue is not specified"] else []) ++
  (if c.competition.city = none then ["Competition city is not specified"] else []) ++
  (if c.competition.number_of_judges = none then
    ["Number of judges is not specified"] else []) ++
  (c.categories.map categoryWarnings).flatten

/-- The full report assembled by one validation pass. -/
def validateReport (c : CanonicalFormat) : ValidationReport :=
  ⟨collectErrors c, collectWarnings c⟩

/-- The single failure message built by the validator (validator.rs lines
181 to 185): a count followed by all error messages joined with
semicolons. -/
def validationFailureMessage (errors : List String) : String :=
  "Validation failed with " ++ natStr errors.length ++ " error(s): "
    ++ String.intercalate "; " errors

/-- Model of CanonicalValidator::validate (validator.rs lines 9 to 189):
collect the report, succeed when no error was pushed, otherwise fail with
one ValidationError string containing the joined messages. -/
def validate (c : CanonicalFormat) : Except ImporterError ValidationReport :=
  let report := validateReport c
  if report.errors = [] then .ok report
  else .error (.ValidationError (validationFailureMessage report.errors))

/-- A concrete document with exactly two independent structural errors:
empty competition name and empty competition slug. -/
def docTwoErrors : CanonicalFormat :=
  { format_version := "1.0.0"
    competition :=
      { name := ""
        slug := ""
        federation := ⟨"FSF", none, none, none⟩
        start_date := 0
        end_date := 0
        venue := none
        city := none
        country := "France"
        number_of_judges := none
        status := some "completed" }
    movements := [⟨"Squat", 1, some true⟩]
    categories := [⟨"-73", "M", none, none, []⟩] }

/-- C3: counterexample. A document with two independent errors produces a
failure whose payload is the single concatenated string, not a structured
list: the payload differs from each individual message and equals the
joined form. -/
theorem c3_counterexample :
    (validateReport docTwoErrors).errors
      = ["Competition name is required", "Competition slug is required"]
    ∧ validate docTwoErrors = .error (.ValidationError
        ("Validation failed with 2 error(s): "
          ++ "Competition name is required; Competition slug is required"))
    ∧ ("Validation failed with 2 error(s): "
          ++ "Competition name is required; Competition slug is required")
        ≠ "Competition name is required"
    ∧ ("Validation failed with 2 error(s): "
          ++ "Competition name is required; Competition slug is required")
        ≠ "Competition slug is required" := by
  refine ⟨by decide, by rfl, by decide, by decide⟩

/-- C3 (amended): validation succeeds exactly when no error was collected,
so warnings never cause failure, and on failure the result carries all N
collected error messages joined into one ValidationError string of the
form: Validation failed with N error(s), followed by the messages
separated by semicolons. -/
theorem c3_validation_failure_shape :
    ∀ c : CanonicalFormat,
      ((validate c).isOk ↔ (validateReport c).errors = [])
      ∧ ((validateReport c).errors ≠ [] →
          validate c = .error (.ValidationError
            (validationFailureMessage (validateReport c).errors))) := by
  intro c
  constructor
  · unfold validate
    by_cases h : (validateReport c).errors = [] <;> simp [h, Except.isOk, Except.toBool]
  · intro h
    unfold validate
    simp [h]

/-- C3: witness. The amended statement applied to the concrete two-error
document. -/
theorem c3_witness :
    (validateReport docTwoErrors).errors ≠ []
    ∧ validate docTwoErrors = .error (.ValidationError
        (validationFailureMessage (validateReport docTwoErrors).errors)) :=
  ⟨by decide, (c3_validation_failure_shape docTwoErrors).2 (by decide)⟩

/-- C9: a document with an empty movements array is rejected with the
message that at least one movement is required, and a document with an
empty categories array is rejected with the message that at least one
category is required. -/
theorem c9_empty_collections_rejected :
    ∀ c : CanonicalFormat,
      (c.movements = [] →
        "At least one movement is required" ∈ (validateReport c).errors
        ∧ (validate c).isOk = false)
      ∧ (c.categories = [] →
        "At least one category is required" ∈ (validateReport c).errors
        ∧ (validate c).isOk = false) := by
  intro c
  have hok : ∀ msg, msg ∈ (validateReport c).errors → (validate c).isOk = false := by
    intro msg hmem
    have hne : (validateReport c).errors ≠ [] := List.ne_nil_of_mem hmem
    unfold validate
    simp [hne, Except.isOk, Except.toBool]
  constructor
  · intro h
    have hmem : "At least one movement is required" ∈ (validateReport c).errors := by
      simp [validateReport, collectErrors, h]
    exact ⟨hmem, hok _ hmem⟩
  · intro h
    have hmem : "At least one category is required" ∈ (validateReport c).errors := by
      simp [validateReport, collectErrors, h]
    exact ⟨hmem, hok _ hmem⟩

/-- A concrete document with no movements and no categories. -/
def docEmptyCollections : CanonicalFormat :=
  { format_version := "1.0.0"
    competition :=
      { name := "Test Open"
        slug := "test-open"
        federation := ⟨"FSF", none, none, none⟩
        start_date := 0
        end_date := 0
        venue := none
        city := none
        country := "France"
        number_of_judges := none
        status := some "completed" }
    movements := []
    categories := [] }

/-- C9: witness. The empty-collections document is rejected with both
messages present among its collected errors. -/
theorem c9_witness :
    docEmptyCollections.movements = []
    ∧ docEmptyCollections.categories = []
    ∧ "At least one movement is required" ∈ (validateReport docEmptyCollections).errors
    ∧ "At least one category is required" ∈ (validateReport docEmptyCollections).errors
    ∧ (validate docEmptyCollections).isOk = false := by
  have h1 := (c9_empty_collections_rejected docEmptyCollections).1 (by decide)
  have h2 := (c9_empty_collections_rejected docEmptyCollections).2 (by decide)
  exact ⟨by decide, by decide, h1.1, h2.1, h1.2⟩

/-- One row of the join of competition_participants with athletes,
competition_groups and competitions, as read by the movement_weights CTE
of repository/ranking.rs; each participant resolves to exactly one
athlete, group and competition. -/
structure ParticipantJoinRow where
  participantId : Nat
  athleteId : Nat
  firstName : String
  lastName : String
  slug : String
  country : String
  gender : String
  competitionId : Nat
  competitionName : String
  startDate : Int
deriving DecidableEq, Repr

/-- One stored lift row as read by the ranking query (participant id,
movement name and max weight). -/
structure RankLiftRow where
  participantId : Nat
  movementName : String
  maxWeight : ℚ
deriving DecidableEq, Repr

/-- One row of the movement_weights CTE: the participant with the
per-movement MAX CASE columns and the SUM column. -/
structure RankingRow where
  participantId : Nat
  athleteId : Nat
  firstName : String
  lastName : String
  slug : String
  country : String
  gender : String
  competitionId : Nat
  competitionName : String
  startDate : Int
  muscleup : ℚ
  pullup : ℚ
  dips : ℚ
  squat : ℚ
  total : ℚ
deriving DecidableEq, Repr

/-- One returned ranking entry: the computed rank plus the row data
(models GlobalRankingEntry of storage/src/dto/ranking.rs). -/
structure GlobalRankingEntry where
  rank : Int
  row : RankingRow
deriving DecidableEq, Repr

/-- The lifts joined to one participant (INNER JOIN lifts l ON
cp.participant_id = l.participant_id). -/
def liftsOfParticipant (lifts : List RankLiftRow) (pid : Nat) : List RankLiftRow :=
  lifts.filter (fun l => l.participantId = pid)

/-- SQL MAX over the values of one group; ranking groups are nonempty
because of the inner join with lifts, so the empty case is never hit. -/
def sqlMaxQ : List ℚ → ℚ
  | [] => 0
  | v :: vs => vs.foldl max v

/-- One MAX(CASE WHEN l.movement_name = name THEN l.max_weight ELSE 0
END) column of the movement_weights CTE. -/
def movementBest (ls : List RankLiftRow) (movement : String) : ℚ :=
  sqlMaxQ (ls.map (fun l => if l.movementName = movement then l.maxWeight else 0))

/-- The SUM(l.max_weight) column of the movement_weights CTE. -/
def sumMaxWeights (ls : List RankLiftRow) : ℚ :=
  (ls.map (fun l => l.maxWeight)).sum

/-- One grouped row of the movement_weights CTE for a participant,
with the four hard-coded lowercase movement name comparisons of
repository/ranking.rs lines 174 to 177. -/
def buildRow (lifts : List RankLiftRow) (p : ParticipantJoinRow) : RankingRow :=
  let ls := liftsOfParticipant lifts p.participantId
  { participantId := p.participantId
    athleteId := p.athleteId
    firstName := p.firstName
    lastName := p.lastName
    slug := p.slug
    country := p.country
    gender := p.gender
    competitionId := p.competitionId
    competitionName := p.competitionName
    startDate := p.startDate
    muscleup := movementBest ls "muscleup"
    pullup := movementBest ls "pullup"
    dips := movementBest ls "dips"
    squat := movementBest ls "squat"
    total := sumMaxWeights ls }

/-- The sort field selection of get_all_movements_ranking
(repository/ranking.rs lines 31 to 37). -/
def sortField (movement : String) : String :=
  if movement = "muscleup" then "muscleup"
  else if movement = "pullup" then "pullup"
  else if movement = "dips" then "dips"
  else if movement = "squat" then "squat"
  else "total"

/-- The value of the selected sort column on a CTE row. -/
def sortKeyOf (field : String) (r : RankingRow) : ℚ :=
  if field = "muscleup" then r.muscleup
  else if field = "pullup" then r.pullup
  else if field = "dips" then r.dips
  else if field = "squat" then r.squat
  else r.total

/-- The WHERE clause on athlete gender and country; the four SQL branches
of get_all_movements_ranking differ only in which filters are present. -/
def participantFilter (gender country : Option String) (p : ParticipantJoinRow) : Bool :=
  (match gender with
    | none => true
    | some g => p.gender = g) &&
  (match country with
    | none => true
    | some c => p.country = c)

/-- Model of RankingRepository::get_all_movements_ranking
(repository/ranking.rs lines 25 to 450): count the distinct participants
matching the filters that have at least one lift, build the grouped CTE
rows, order by the selected column descending with ties in input order,
window-number them, slice with OFFSET and LIMIT, and add the offset to the
row number as the Rust code does. -/
def get_all_movements_ranking (parts : List ParticipantJoinRow)
    (lifts : List RankLiftRow) (gender country : Option String)
    (movement : String) (offset limit : Nat) :
    List GlobalRankingEntry × Nat :=
  let field := sortField movement
  let eligible := parts.filter (fun p =>
    participantFilter gender country p
      && !(liftsOfParticipant lifts p.participantId).isEmpty)
  let totalItems := eligible.length
  let rows := eligible.map (buildRow lifts)
  let sorted := sortDescBy (sortKeyOf field) rows
  let page := (sorted.enum.drop offset).take limit
  (page.map (fun pr => ⟨(pr.1 : Int) + 1 + (offset : Int), pr.2⟩), totalItems)

/-- Model of RankingRepository::get_global_ranking (repository/ranking.rs
lines 16 to 23): page-based pagination over the same query. -/
def get_global_ranking (parts : List ParticipantJoinRow) (lifts : List RankLiftRow)
    (gender country : Option String) (movement : String) (page pageSize : Nat) :
    List GlobalRankingEntry × Nat :=
  get_all_movements_ranking parts lifts gender country movement
    ((page - 1) * pageSize) pageSize

/-- A stored female participant with a Squat lift of 100, inserted
first. -/
def partF1 : ParticipantJoinRow :=
  ⟨1, 1, "Alice", "Martin", "alice-martin", "FRA", "F", 1, "Open", 0⟩

/-- A stored female participant with a Squat lift of 120, inserted
second. -/
def partF2 : ParticipantJoinRow :=
  ⟨2, 2, "Beatrice", "Noel", "beatrice-noel", "FRA", "F", 1, "Open", 0⟩

/-- The stored lifts of the two participants, under the canonical
movement name Squat produced by CanonicalMovement::as_str. -/
def squatLifts : List RankLiftRow :=
  [⟨1, "Squat", 100⟩, ⟨2, "Squat", 120⟩]

/-- C4: the ranking query with gender F, movement squat, page size 10
returns the right total count and at most 10 entries, but its squat column
compares the stored movement name against the lowercase literal squat,
which never matches the canonical stored name Squat, so every sort key is
0 and the entries come back in insertion order 100 before 120 instead of
descending best Squat weight. -/
theorem c4_ranking_case_mismatch :
    (get_global_ranking [partF1, partF2] squatLifts (some "F") none "squat" 1 10).2 = 2
    ∧ ((get_global_ranking [partF1, partF2] squatLifts (some "F") none "squat" 1 10).1.map
        (fun e => e.row.athleteId)) = [1, 2]
    ∧ ((get_global_ranking [partF1, partF2] squatLifts (some "F") none "squat" 1 10).1.map
        (fun e => e.row.squat)) = [0, 0]
    ∧ movementBest (liftsOfParticipant squatLifts 1) "Squat" = 100
    ∧ movementBest (liftsOfParticipant squatLifts 2) "Squat" = 120 := by
  refine ⟨?_, ?_, ?_, ?_, ?_⟩ <;>
    norm_num [get_global_ranking, get_all_movements_ranking, sortField, sortKeyOf,
      participantFilter, buildRow, liftsOfParticipant, movementBest, sqlMaxQ,
      sumMaxWeights, sortDescBy, insertDescBy, partF1, partF2, squatLifts,
      List.filter, List.enum, List.enumFrom] <;>
    try decide

/-- Char.ofNat returns the same code point for values below the surrogate
range. -/
theorem char_toNat_ofNat {n : Nat} (h : n < 55296) : (Char.ofNat n).toNat = n := by
  unfold Char.ofNat
  rw [dif_pos (Or.inl h)]
  simp [Char.ofNatAux, Char.toNat, UInt32.toNat]

/-- isUpper phrased on the underlying natural code point. -/
theorem isUpper_eq_toNat (c : Char) :
    c.isUpper = (decide (65 ≤ c.toNat) && decide (c.toNat ≤ 90)) := by
  simp only [Char.isUpper, Char.toNat, ge_iff_le, UInt32.le_def, BitVec.le_def]
  rfl

/-- Lowering a character never leaves an ASCII uppercase letter. -/
theorem toLower_isUpper_false (c : Char) : (Char.toLower c).isUpper = false := by
  unfold Char.toLower
  by_cases h : c.toNat ≥ 65 ∧ c.toNat ≤ 90
  · rw [if_pos h, isUpper_eq_toNat, char_toNat_ofNat (by omega)]
    simp
    omega
  · rw [if_neg h, isUpper_eq_toNat]
    simp
    omega

/-- Split a character list on the dash separator, keeping empty segments,
as the Rust split does. -/
def splitDash : List Char → List (List Char)
  | [] => [[]]
  | c :: rest =>
      if c = '-' then [] :: splitDash rest
      else
        match splitDash rest with
        | [] => [[c]]
        | p :: ps => (c :: p) :: ps

/-- Join segments with single dashes, as the Rust join does. -/
def joinDash : List (List Char) → List Char
  | [] => []
  | [p] => p
  | p :: ps => p ++ '-' :: joinDash ps

/-- The character pipeline of generate_unique_slug
(canonical/transformer.rs lines 296 to 299): format first-last, lowercase,
and keep only alphanumeric characters and dashes. -/
def slugFilteredChars (first last : String) : List Char :=
  ((first.data ++ '-' :: last.data).map Char.toLower).filter
    (fun c => c.isAlphanum || c = '-')

/-- The slug body after splitting on dashes, dropping empty segments and
rejoining (canonical/transformer.rs lines 300 to 304). -/
def baseSlugChars (first last : String) : List Char :=
  joinDash ((splitDash (slugFilteredChars first last)).filter (fun p => !p.isEmpty))

/-- The base slug, falling back to the literal athlete when everything
was filtered away (canonical/transformer.rs lines 306 to 310). -/
def base_slug (first last : String) : String :=
  if baseSlugChars first last = [] then "athlete" else ⟨baseSlugChars first last⟩

/-- The k-th slug candidate tried by the collision loop: the base slug
itself, then the base slug with the numeric suffixes 2, 3, and so on. -/
def candidateSlug (base : String) : Nat → String
  | 0 => base
  | j + 1 => base ++ "-" ++ natStr (j + 2)

/-- Model of CanonicalTransformer::generate_unique_slug
(canonical/transformer.rs lines 290 to 328) against a finite set of
already-assigned slugs: return the first candidate that is not taken. The
loop needs at most one more candidate than there are existing slugs, which
the range covers; the none branch is proved unreachable. -/
def generate_unique_slug (existing : List String) (first last : String) : String :=
  let base := base_slug first last
  match (List.range (existing.length + 1)).find?
      (fun k => !existing.contains (candidateSlug base k)) with
  | some k => candidateSlug base k
  | none => base

/-- Every character of every dash-split segment comes from the input. -/
theorem mem_splitDash : ∀ (cs : List Char) (p : List Char), p ∈ splitDash cs →
    ∀ c ∈ p, c ∈ cs := by
  intro cs
  induction cs with
  | nil =>
      intro p hp c hc
      simp [splitDash] at hp
      subst hp
      simp at hc
  | cons c0 rest ih =>
      intro p hp c hc
      simp only [splitDash] at hp
      by_cases h0 : c0 = '-'
      · rw [if_pos h0] at hp
        rcases List.mem_cons.mp hp with h | h
        · subst h; simp at hc
        · exact List.mem_cons_of_mem _ (ih p h c hc)
      · rw [if_neg h0] at hp
        cases hrest : splitDash rest with
        | nil =>
            rw [hrest] at hp
            simp at hp
            subst hp
            simp at hc
            subst hc
            exact List.mem_cons_self _ _
        | cons q qs =>
            rw [hrest] at hp
            rcases List.mem_cons.mp hp with h | h
            · subst h
              rcases List.mem_cons.mp hc with h | h
              · subst h; exact List.mem_cons_self _ _
              · have : c ∈ q := h
                have hq : q ∈ splitDash rest := by rw [hrest]; exact List.mem_cons_self _ _
                exact List.mem_cons_of_mem _ (ih q hq c this)
            · have hq : p ∈ splitDash rest := by
                rw [hrest]; exact List.mem_cons_of_mem _ h
              exact List.mem_cons_of_mem _ (ih p hq c hc)

/-- Every character of a dash-join is a dash or comes from a segment. -/
theorem mem_joinDash : ∀ (ps : List (List Char)) (c : Char), c ∈ joinDash ps →
    c = '-' ∨ ∃ p ∈ ps, c ∈ p := by
  intro ps
  induction ps with
  | nil => intro c hc; simp [joinDash] at hc
  | cons p ps ih =>
      intro c hc
      cases ps with
      | nil =>
          simp only [joinDash] at hc
          exact Or.inr ⟨p, List.mem_cons_self _ _, hc⟩
      | cons q qs =>
          simp only [joinDash] at hc
          rcases List.mem_append.mp hc with h | h
          · exact Or.inr ⟨p, List.mem_cons_self _ _, h⟩
          · rcases List.mem_cons.mp h with h | h
            · exact Or.inl h
            · rcases ih c h with h | ⟨r, hr, hcr⟩
              · exact Or.inl h
              · exact Or.inr ⟨r, List.mem_cons_of_mem _ hr, hcr⟩

/-- Every character of the slug body is a non-uppercase alphanumeric
character or a dash. -/
theorem baseSlugChars_props (first last : String) :
    ∀ c ∈ baseSlugChars first last, (c.isAlphanum = true ∧ c.isUpper = false) ∨ c = '-' := by
  intro c hc
  rcases mem_joinDash _ c hc with h | ⟨p, hp, hcp⟩
  · exact Or.inr h
  · have hp2 : p ∈ splitDash (slugFilteredChars first last) := (List.mem_filter.mp hp).1
    have hcf : c ∈ slugFilteredChars first last := mem_splitDash _ p hp2 c hcp
    have hfil := List.mem_filter.mp hcf
    have hclass : c.isAlphanum = true ∨ c = '-' := by
      have := hfil.2
      simp only [Bool.or_eq_true, decide_eq_true_eq] at this
      exact this
    rcases hclass with h | h
    · have hupper : c.isUpper = false := by
        have hmap := hfil.1
        rcases List.mem_map.mp hmap with ⟨d, _, hd⟩
        rw [← hd]
        exact toLower_isUpper_false d
      exact Or.inl ⟨h, hupper⟩
    · exact Or.inr h

/-- The base slug, including the athlete fallback, uses only lowercase
alphanumeric characters and dashes. -/
theorem base_slug_props (first last : String) :
    ∀ c ∈ (base_slug first last).data, (c.isAlphanum = true ∧ c.isUpper = false) ∨ c = '-' := by
  intro c hc
  unfold base_slug at hc
  by_cases h : baseSlugChars first last = []
  · rw [if_pos h] at hc
    have : c ∈ "athlete".data := hc
    fin_cases this <;> exact Or.inl ⟨by decide, by decide⟩
  · rw [if_neg h] at hc
    exact baseSlugChars_props first last c hc

/-- Candidates keep the character class: the suffix adds only a dash and
decimal digits. -/
theorem candidateSlug_props (base : String)
    (hbase : ∀ c ∈ base.data, (c.isAlphanum = true ∧ c.isUpper = false) ∨ c = '-') :
    ∀ k, ∀ c ∈ (candidateSlug base k).data,
      (c.isAlphanum = true ∧ c.isUpper = false) ∨ c = '-' := by
  intro k c hc
  cases k with
  | zero => exact hbase c hc
  | succ j =>
      simp only [candidateSlug, String.data_append] at hc
      rcases List.mem_append.mp hc with h | h
      · rcases List.mem_append.mp h with h | h
        · exact hbase c h
        · have : c = '-' := by simpa using h
          exact Or.inr this
      · have := mem_natDigits_props (j + 2) c h
        exact Or.inl ⟨this.2.1, this.2.2⟩

/-- The bare base slug differs from every suffixed candidate. -/
theorem candidateSlug_zero_ne_succ (base : String) (j : Nat) :
    candidateSlug base 0 ≠ candidateSlug base (j + 1) := by
  intro h
  have hlen := congrArg (fun s : String => s.data.length) h
  simp only [candidateSlug, String.data_append, List.length_append] at hlen
  have hne := natDigits_ne_nil (j + 2)
  cases hd : natDigits (j + 2) with
  | nil => exact hne hd
  | cons a l =>
      have hd2 : (natStr (j + 2)).data = a :: l := hd
      rw [hd2] at hlen
      simp at hlen
      omega

/-- Distinct candidate indices give distinct candidate slugs. -/
theorem candidateSlug_inj (base : String) : Function.Injective (candidateSlug base) := by
  intro k m h
  cases k with
  | zero =>
      cases m with
      | zero => rfl
      | succ j => exact absurd h (candidateSlug_zero_ne_succ base j)
  | succ j =>
      cases m with
      | zero => exact absurd h.symm (candidateSlug_zero_ne_succ base j)
      | succ m =>
          have hdata := congrArg String.data h
          simp only [candidateSlug, String.data_append] at hdata
          have h2 : (natStr (j + 2)).data = (natStr (m + 2)).data :=
            List.append_cancel_left hdata
          have h3 : natDigits (j + 2) = natDigits (m + 2) := h2
          have h4 : natStr (j + 2) = natStr (m + 2) := congrArg String.mk h3
          have := natStr_inj _ _ h4
          omega

/-- Pigeonhole: among one more candidate than there are existing slugs,
some candidate is fresh, so the collision loop terminates with a result
found inside the searched range. -/
theorem slug_find_isSome (existing : List String) (base : String) :
    (List.range (existing.length + 1)).find?
      (fun k => !existing.contains (candidateSlug base k)) ≠ none := by
  intro hnone
  have hall : ∀ k ∈ List.range (existing.length + 1),
      candidateSlug base k ∈ existing := by
    intro k hk
    have := List.find?_eq_none.mp hnone k hk
    simp only [Bool.not_eq_true', Bool.not_eq_false] at this
    simpa using this
  have hnodup : ((List.range (existing.length + 1)).map (candidateSlug base)).Nodup :=
    (List.nodup_range _).map (candidateSlug_inj base)
  have hsub : ((List.range (existing.length + 1)).map (candidateSlug base)).toFinset
      ⊆ existing.toFinset := by
    intro s hs
    rw [List.mem_toFinset] at hs ⊢
    rcases List.mem_map.mp hs with ⟨k, hk, rfl⟩
    exact hall k hk
  have hcard1 : ((List.range (existing.length + 1)).map (candidateSlug base)).toFinset.card
      = existing.length + 1 := by
    rw [List.toFinset_card_of_nodup hnodup]
    simp
  have hcard2 := Finset.card_le_card hsub
  have hcard3 := existing.toFinset_card_le
  omega

/-- C8: the generated slug consists only of lowercase alphanumeric
characters and hyphens, never collides with an existing slug, and when the
base slug is already taken the result is the base slug with a numeric
suffix of at least 2. -/
theorem c8_generate_unique_slug (existing : List String) (first last : String) :
    (∀ c ∈ (generate_unique_slug existing first last).data,
      (c.isAlphanum = true ∧ c.isUpper = false) ∨ c = '-')
    ∧ generate_unique_slug existing first last ∉ existing
    ∧ (base_slug first last ∈ existing →
        ∃ n, 2 ≤ n ∧ generate_unique_slug existing first last
          = base_slug first last ++ "-" ++ natStr n) := by
  cases hfind : (List.range (existing.length + 1)).find?
      (fun k => !existing.contains (candidateSlug (base_slug first last) k)) with
  | none => exact absurd hfind (slug_find_isSome existing (base_slug first last))
  | some k =>
      have hres : generate_unique_slug existing first last
          = candidateSlug (base_slug first last) k := by
        simp only [generate_unique_slug, hfind]
      have hfresh := List.find?_some hfind
      simp only [Bool.not_eq_true', Bool.not_eq_false] at hfresh
      have hnotmem : candidateSlug (base_slug first last) k ∉ existing := by
        intro hmem
        have h2 : existing.contains (candidateSlug (base_slug first last) k) = true :=
          List.elem_iff.mpr hmem
        rw [h2] at hfresh
        simp at hfresh
      refine ⟨?_, ?_, ?_⟩
      · rw [hres]
        exact candidateSlug_props (base_slug first last) (base_slug_props first last) k
      · rw [hres]; exact hnotmem
      · intro hbase
        rw [hres]
        cases k with
        | zero =>
            exfalso
            exact hnotmem hbase
        | succ j => exact ⟨j + 2, by omega, rfl⟩

/-- C8: witness. With the existing slug john-smith taken, generating a
slug for John Smith collides on the base slug and yields a fresh suffixed
slug of the required shape. -/
theorem c8_witness :
    base_slug "John" "Smith" ∈ ["john-smith"]
    ∧ generate_unique_slug ["john-smith"] "John" "Smith" ∉ ["john-smith"]
    ∧ ∃ n, 2 ≤ n ∧ generate_unique_slug ["john-smith"] "John" "Smith"
        = base_slug "John" "Smith" ++ "-" ++ natStr n :=
  ⟨by decide, (c8_generate_unique_slug ["john-smith"] "John" "Smith").2.1,
    (c8_generate_unique_slug ["john-smith"] "John" "Smith").2.2 (by decide)⟩

end OSL
